import Mathlib

/-!
Verification development for the colab-vscode authentication-and-assignment
lifecycle.

The definitions below shallowly embed the repository's code:
* `login`, `exchangeCodeForCredentials`, `isDefinedCredentials` embed
  `src/auth/login.ts` (the multi-strategy OAuth2 login orchestrator);
* `flowResolveCode`, `getQueryParam` embed the inbound callback URI handler of
  `src/auth/flows/proxied.ts` (`ProxiedRedirectFlow.resolveCode`);
* the CodeManager and AssignmentManager, whose implementation files are not
  part of the available sources (only their tests and callers are), are
  modelled from the specification, as marked on each definition.

Asynchrony is embedded by explicit state passing: the fake-timer clock of the
CodeManager becomes a `now` field advanced by `advanceTime`, and promise
resolution and rejection become entries in an `outcomes` list.  JavaScript
object identity of flow strategies is embedded as a `ref : Nat` field.
-/

namespace ColabVsCode

/-! ### Login orchestrator (embedding of src/auth/login.ts) -/

/-- OAuth2 token fields as returned by the token client (google-auth-library
`Credentials`); every field may be absent, mirroring the TypeScript optional
fields (`!= null` checks become `Option.isSome`). -/
structure OAuthCredentials where
  refresh_token : Option String
  access_token : Option String
  expiry_date : Option Int
  scope : Option String
  id_token : Option String
deriving Repr, DecidableEq

/-- The HTTP-level response attached to a token exchange (`res` of
`GetTokenResponse`). -/
structure HttpResponse where
  status : Nat
  statusText : String
deriving Repr, DecidableEq

/-- The `GetTokenResponse` of google-auth-library: an optional HTTP-level response
and the parsed tokens. -/
structure GetTokenResponse where
  res : Option HttpResponse
  tokens : OAuthCredentials
deriving Repr, DecidableEq

/-- The argument record of `oAuth2Client.getToken`. -/
structure TokenRequest where
  code : String
  codeVerifier : String
  redirect_uri : Option String
deriving Repr, DecidableEq

/-- The `FlowResult` of src/auth/flows/flows.ts.  The optional per-attempt
disposable is embedded by its object identity (a `Nat`). -/
structure FlowResult where
  code : String
  redirectUri : Option String
  disposable : Option Nat
deriving Repr, DecidableEq

/-- One OAuth2 flow strategy, embedded by its object identity `ref` (JavaScript
reference equality) and the outcome its `trigger` produces for this login call:
either a thrown error (by message) or a `FlowResult`. -/
structure Flow where
  ref : Nat
  triggerResult : Except String FlowResult
deriving Repr

/-- Embedding of `isDefinedCredentials` in src/auth/login.ts: all four of
refresh token, access token, expiry date and scope are present. -/
def isDefinedCredentials (c : OAuthCredentials) : Bool :=
  c.refresh_token.isSome && c.access_token.isSome &&
    c.expiry_date.isSome && c.scope.isSome

/-- The `details` string in the token-exchange failure message. -/
def statusDetails : Option HttpResponse → String
  | some r => r.statusText
  | none => "unknown error"

/-- The token request `exchangeCodeForCredentials` sends for a given flow
result and PKCE verifier. -/
def tokenRequestFor (flowResult : FlowResult) (pkceVerifier : String) :
    TokenRequest :=
  { code := flowResult.code, codeVerifier := pkceVerifier,
    redirect_uri := flowResult.redirectUri }

/-- Embedding of `exchangeCodeForCredentials` in src/auth/login.ts.  The token
client is a function from the request to its response. -/
def exchangeCodeForCredentials (getToken : TokenRequest → GetTokenResponse)
    (flowResult : FlowResult) (pkceVerifier : String) :
    Except String OAuthCredentials :=
  let tokenResponse := getToken (tokenRequestFor flowResult pkceVerifier)
  if tokenResponse.res.map HttpResponse.status ≠ some 200 then
    Except.error ("Failed to get token: " ++ statusDetails tokenResponse.res ++ ".")
  else if !(isDefinedCredentials tokenResponse.tokens) then
    Except.error "Missing credential information."
  else
    Except.ok tokenResponse.tokens

/-- The observable trace of one `login` call: the returned credentials or the
thrown error, the refs of the flows whose `trigger` was invoked in order, the
per-attempt failure notifications shown, and the disposables disposed. -/
structure LoginTrace where
  result : Except String OAuthCredentials
  attempted : List Nat
  notified : List String
  disposed : List Nat
deriving Repr

/-- One attempt of the login loop body: run the flow's trigger, then exchange
the returned code; on success the attempt yields the credentials together with
the flow result's disposable (which the source disposes before returning). -/
def attemptFlow (getToken : TokenRequest → GetTokenResponse)
    (pkceVerifier : String) (flow : Flow) :
    Except String (OAuthCredentials × Option Nat) :=
  match flow.triggerResult with
  | Except.error e => Except.error e
  | Except.ok flowResult =>
    match exchangeCodeForCredentials getToken flowResult pkceVerifier with
    | Except.error e => Except.error e
    | Except.ok creds => Except.ok (creds, flowResult.disposable)

/-- The `for (const flow of flows)` loop of `login`.  `firstRef` is the
identity of `flows[0]`; `finalMsg` the message thrown when the loop ends
without success; `pkce` gives the fresh PKCE verifier of each attempt (indexed
by the number of attempts made so far) and `prompt` the user's answer to each
"try a different method?" prompt (indexed by the number of prompts shown so
far). -/
def loginGo (firstRef : Nat) (finalMsg : String)
    (getToken : TokenRequest → GetTokenResponse)
    (pkce : Nat → String) (prompt : Nat → Bool) :
    List Flow → Nat → Nat → LoginTrace
  | [], _, _ =>
    { result := Except.error finalMsg, attempted := [], notified := [],
      disposed := [] }
  | flow :: rest, attemptIdx, promptIdx =>
    if flow.ref ≠ firstRef ∧ prompt promptIdx = false then
      { result := Except.error finalMsg, attempted := [], notified := [],
        disposed := [] }
    else
      let promptNext := if flow.ref = firstRef then promptIdx else promptIdx + 1
      match attemptFlow getToken (pkce attemptIdx) flow with
      | Except.ok (creds, disp) =>
        { result := Except.ok creds, attempted := [flow.ref], notified := [],
          disposed := disp.toList }
      | Except.error e =>
        let tr := loginGo firstRef finalMsg getToken pkce prompt rest
          (attemptIdx + 1) promptNext
        { result := tr.result, attempted := flow.ref :: tr.attempted,
          notified := ("Sign-in attempt failed: " ++ e ++ ".") :: tr.notified,
          disposed := tr.disposed }

/-- Embedding of `login` in src/auth/login.ts. -/
def login (flows : List Flow) (getToken : TokenRequest → GetTokenResponse)
    (pkce : Nat → String) (prompt : Nat → Bool) : LoginTrace :=
  match flows with
  | [] =>
    { result := Except.error "No authentication flows available.",
      attempted := [], notified := [], disposed := [] }
  | f0 :: _ =>
    let finalMsg :=
      if 1 < flows.length then "All authentication methods failed."
      else "Authentication failed."
    loginGo f0.ref finalMsg getToken pkce prompt flows 0 0

/-! ### Code Correlator (CodeManager)

The implementation file `src/auth/code-manager.ts` is not among the available
sources; only its unit tests and its callers are.  The state machine below is
therefore modelled from the spec, with the asynchronous 60-second timers
embedded as per-request deadlines measured against an explicit clock. -/

/-- Modelled from the spec: the outcome of a completed `waitForCode` request —
resolution with a code, timeout, or cancellation (§4.1). -/
inductive WaitOutcome
  | resolved (code : String)
  | timedOut
  | cancelled
deriving Repr, DecidableEq

/-- Modelled from the spec: a `PendingCodeRequest` (§3), keyed by its nonce and
holding its fixed deadline, 60 seconds from its own registration. -/
structure PendingRequest where
  nonce : String
  deadline : Nat
deriving Repr, DecidableEq

/-- Modelled from the spec: the CodeManager's state — the current clock (in
milliseconds of simulated time), the set of pending requests, and the outcomes
of all requests completed so far. -/
structure CodeManagerState where
  now : Nat
  pending : List PendingRequest
  outcomes : List (String × WaitOutcome)
deriving Repr, DecidableEq

/-- Modelled from the spec: the CodeManager's misuse errors, `AlreadyWaiting`
and `UnknownNonce` (§4.1, §7). -/
inductive CodeManagerError
  | alreadyWaiting
  | unknownNonce
deriving Repr, DecidableEq

/-- The nonces with a pending request. -/
def pendingNonces (s : CodeManagerState) : List String :=
  s.pending.map PendingRequest.nonce

/-- The fixed 60-second wait deadline, in milliseconds. -/
def waitTimeoutMs : Nat := 60000

/-- Modelled from the spec: `waitForCode(nonce, ...)` registers a pending
request for `nonce` with a deadline 60 seconds from registration, and fails
with `AlreadyWaiting` — destroying nothing — if `nonce` is already registered
(§4.1).  The returned state is the manager's state after the call. -/
def waitForCode (s : CodeManagerState) (nonce : String) :
    Except CodeManagerError Unit × CodeManagerState :=
  if nonce ∈ pendingNonces s then
    (Except.error CodeManagerError.alreadyWaiting, s)
  else
    (Except.ok (),
     { s with pending := s.pending ++ [⟨nonce, s.now + waitTimeoutMs⟩] })

/-- Modelled from the spec: `resolveCode(nonce, code)` fails with
`UnknownNonce` — destroying no other pending request — if no pending request
exists for `nonce`, and otherwise resolves exactly that one, removing its entry
(§4.1). -/
def resolveCode (s : CodeManagerState) (nonce code : String) :
    Except CodeManagerError Unit × CodeManagerState :=
  if nonce ∈ pendingNonces s then
    (Except.ok (),
     { s with
        pending := s.pending.filter (fun p => p.nonce != nonce),
        outcomes := s.outcomes ++ [(nonce, WaitOutcome.resolved code)] })
  else
    (Except.error CodeManagerError.unknownNonce, s)

/-- Modelled from the spec: firing the cancellation signal of the pending
request for `nonce` fails it with `Cancelled` and removes its entry; a stale
signal after resolution is a no-op (§4.1, §5). -/
def cancelWait (s : CodeManagerState) (nonce : String) : CodeManagerState :=
  if nonce ∈ pendingNonces s then
    { s with
       pending := s.pending.filter (fun p => p.nonce != nonce),
       outcomes := s.outcomes ++ [(nonce, WaitOutcome.cancelled)] }
  else s

/-- Modelled from the spec: advancing simulated time by `delta` milliseconds.
Every pending request whose own 60-second deadline has been reached fails with
`Timeout` and is removed; each request's clock is its own, started at its
registration (§4.1, §5). -/
def advanceTime (s : CodeManagerState) (delta : Nat) : CodeManagerState :=
  let t := s.now + delta
  { now := t,
    pending := s.pending.filter (fun p => decide (t < p.deadline)),
    outcomes := s.outcomes ++
      (s.pending.filter (fun p => decide (p.deadline ≤ t))).map
        (fun p => (p.nonce, WaitOutcome.timedOut)) }

/-! ### Inbound callback URI handler (embedding of
`ProxiedRedirectFlow.resolveCode` in src/auth/flows/proxied.ts) -/

/-- Splitting a character list at a separator (accumulator-based, so that it
computes by structural recursion). -/
def splitOnCharAux (sep : Char) : List Char → List Char → List (List Char)
  | [], acc => [acc.reverse]
  | ch :: rest, acc =>
    if ch = sep then acc.reverse :: splitOnCharAux sep rest []
    else splitOnCharAux sep rest (ch :: acc)

/-- Splitting a character list at every occurrence of a separator. -/
def splitOnChar (sep : Char) (cs : List Char) : List (List Char) :=
  splitOnCharAux sep cs []

/-- URLSearchParams-style parsing of a URI query string into key-value pairs:
segments are separated by the ampersand, a segment's key is everything before
its first equals sign and its value everything after (empty when there is
none).  Percent-decoding is omitted: the properties proved below concern only
the presence and emptiness of the `nonce` and `code` parameters. -/
def parseQueryParams (query : String) : List (String × String) :=
  (splitOnChar (Char.ofNat 38) query.data).filterMap fun seg =>
    if seg = [] then none
    else some (String.mk (seg.takeWhile (fun ch => ch != Char.ofNat 61)),
               String.mk ((seg.dropWhile (fun ch => ch != Char.ofNat 61)).drop 1))

/-- Lookup as in `URLSearchParams.get`: the first value bound to `key`, or `none`. -/
def getQueryParam (query key : String) : Option String :=
  ((parseQueryParams query).find? (fun p => p.1 == key)).map Prod.snd

/-- A query parameter that is absent or empty (JavaScript falsiness of
`params.get(...)`, which yields `null` or the empty string). -/
def missingParam : Option String → Bool
  | none => true
  | some v => v == ""

/-- Modelled from the spec: the human-readable messages of the CodeManager's
misuse errors, which the tests match as /waiting/ and /Unexpected/. -/
def codeManagerErrorMessage : CodeManagerError → String
  | CodeManagerError.alreadyWaiting => "Already waiting for a code for this nonce"
  | CodeManagerError.unknownNonce => "Unexpected nonce"

/-- Embedding of the private `resolveCode(uri)` handler of
`ProxiedRedirectFlow` (src/auth/flows/proxied.ts): parse the `nonce` and
`code` query parameters of the received URI; if either is absent or empty,
throw the single error "Missing nonce or code in redirect URI"; otherwise call
`codeManager.resolveCode(nonce, code)`, whose own error propagates. -/
def flowResolveCode (s : CodeManagerState) (query : String) :
    Except String Unit × CodeManagerState :=
  let nonce := getQueryParam query "nonce"
  let code := getQueryParam query "code"
  if missingParam nonce || missingParam code then
    (Except.error "Missing nonce or code in redirect URI", s)
  else
    match resolveCode s (nonce.getD "") (code.getD "") with
    | (Except.ok _, s₂) => (Except.ok (), s₂)
    | (Except.error e, s₂) => (Except.error (codeManagerErrorMessage e), s₂)

/-! ### Assignment Manager

The implementation file `src/jupyter/assignments.ts` is not among the
available sources; only its unit tests, the `ColabAssignedServer` data model
(src/jupyter/servers.ts) and its callers are.  The operations below are
modelled from the spec (§4.4, §6). -/

/-- The `RuntimeProxyInfo` of the remote assignment API response (§6). -/
structure RuntimeProxyInfo where
  token : String
  tokenExpiresInSeconds : Nat
  url : String
deriving Repr, DecidableEq

/-- The remote assignment API response (§6): `assign(id, variant,
accelerator?) -> { accelerator?, endpoint, sub, subTier, variant,
machineShape, runtimeProxyInfo? }`. -/
structure AssignmentResponse where
  accelerator : Option String
  endpoint : String
  sub : String
  subTier : String
  variant : String
  machineShape : String
  runtimeProxyInfo : Option RuntimeProxyInfo
deriving Repr, DecidableEq

/-- The `ColabServerDescriptor` of src/jupyter/servers.ts. -/
structure ColabServerDescriptor where
  label : String
  variant : String
  accelerator : Option String
deriving Repr, DecidableEq

/-- The persisted connection information of an assigned server: base URL,
runtime-proxy token and the headers regenerated from that token.  The bound
`fetch` function is never itself persisted; it is reconstructed from this
record by `connectionFetch`. -/
structure ConnectionInformation where
  baseUrl : String
  token : String
  headers : List (String × String)
deriving Repr, DecidableEq

/-- The `ColabAssignedServer` of src/jupyter/servers.ts: descriptor fields plus
id, endpoint, connection information and assignment date. -/
structure ColabAssignedServer where
  id : String
  label : String
  variant : String
  accelerator : Option String
  endpoint : String
  connectionInformation : ConnectionInformation
  dateAssigned : Nat
deriving Repr, DecidableEq

/-- The `AssignmentChangeEvent` record (§3): broadcast after every mutation of the
assignment set. -/
structure AssignmentChangeEvent where
  added : List ColabAssignedServer
  removed : List (ColabAssignedServer × Bool)
  changed : List ColabAssignedServer
deriving Repr, DecidableEq

/-- Modelled from the spec: the Assignment Manager's observable state — the
persisted server storage it owns, the change events emitted on
`onDidAssignmentsChange` so far, and the log of calls made to the remote
assignment API (each recorded as id, variant, accelerator). -/
structure AssignmentManagerState where
  storage : List ColabAssignedServer
  events : List AssignmentChangeEvent
  apiCalls : List (String × String × Option String)
deriving Repr, DecidableEq

/-- Modelled from the spec: the `MissingConnectionInfo` failure (§4.4, §7). -/
inductive AssignmentError
  | missingConnectionInfo
deriving Repr, DecidableEq

/-- The runtime-proxy token header injected on every outbound call (§6). -/
def proxyTokenHeader : String := "X-Colab-Runtime-Proxy-Token"

/-- The client-agent header injected on every outbound call (§6). -/
def clientAgentHeader : String := "X-Colab-Client-Agent"

/-- The headers regenerated from a runtime-proxy token and the client name. -/
def connectionHeaders (token clientName : String) : List (String × String) :=
  [(proxyTokenHeader, token), (clientAgentHeader, clientName)]

/-- Connection information built from a base URL and a fresh token, with
headers regenerated from the token. -/
def mkConnectionInfo (baseUrl token clientName : String) :
    ConnectionInformation :=
  { baseUrl := baseUrl, token := token,
    headers := connectionHeaders token clientName }

/-- An outbound HTTP request made through a server's bound fetch. -/
structure OutboundRequest where
  url : String
  headers : List (String × String)
deriving Repr, DecidableEq

/-- Modelled from the spec: the bound network function
`connectionInformation.fetch`, reconstructed from the stored record; it
attaches the record's headers to every outbound call (§4.4, §6). -/
def connectionFetch (ci : ConnectionInformation) (req : OutboundRequest) :
    OutboundRequest :=
  { req with headers := req.headers ++ ci.headers }

/-- Modelled from the spec: `assignServer(id, descriptor)` calls the remote
assignment API with `(id, variant, accelerator)`; fails with
`MissingConnectionInfo` if the response lacks proxy info, a non-empty URL, or
a non-empty token, performing no storage write and emitting no event; on
success builds the assigned server whose connection information carries the
response's URL and token and the regenerated headers, persists the full
updated set (read-modify-write) and emits one change event with this server in
`added` (§4.4). -/
def assignServer (api : String → String → Option String → AssignmentResponse)
    (clientName : String) (st : AssignmentManagerState)
    (id : String) (descriptor : ColabServerDescriptor) (now : Nat) :
    Except AssignmentError ColabAssignedServer × AssignmentManagerState :=
  let st₁ := { st with
    apiCalls := st.apiCalls ++ [(id, descriptor.variant, descriptor.accelerator)] }
  let resp := api id descriptor.variant descriptor.accelerator
  match resp.runtimeProxyInfo with
  | none => (Except.error AssignmentError.missingConnectionInfo, st₁)
  | some rp =>
    if rp.url = "" ∨ rp.token = "" then
      (Except.error AssignmentError.missingConnectionInfo, st₁)
    else
      let server : ColabAssignedServer :=
        { id := id, label := descriptor.label, variant := descriptor.variant,
          accelerator := descriptor.accelerator, endpoint := resp.endpoint,
          connectionInformation := mkConnectionInfo rp.url rp.token clientName,
          dateAssigned := now }
      (Except.ok server,
       { st₁ with
          storage := st₁.storage ++ [server],
          events := st₁.events ++
            [{ added := [server], removed := [], changed := [] }] })

/-- Modelled from the spec: `refreshConnection(server)` re-invokes the remote
assignment API for the same id/variant/accelerator to obtain a new token,
replaces only `connectionInformation` — new token, headers regenerated from
it, same base URL — persists the updated set and emits one change event with
this server in `changed` (§4.4).  A response without usable proxy info fails
with `MissingConnectionInfo` like an assignment does. -/
def refreshConnection
    (api : String → String → Option String → AssignmentResponse)
    (clientName : String) (st : AssignmentManagerState)
    (server : ColabAssignedServer) :
    Except AssignmentError ColabAssignedServer × AssignmentManagerState :=
  let st₁ := { st with
    apiCalls := st.apiCalls ++ [(server.id, server.variant, server.accelerator)] }
  let resp := api server.id server.variant server.accelerator
  match resp.runtimeProxyInfo with
  | none => (Except.error AssignmentError.missingConnectionInfo, st₁)
  | some rp =>
    if rp.url = "" ∨ rp.token = "" then
      (Except.error AssignmentError.missingConnectionInfo, st₁)
    else
      let refreshed : ColabAssignedServer :=
        { server with connectionInformation :=
            (mkConnectionInfo server.connectionInformation.baseUrl rp.token
              clientName) }
      (Except.ok refreshed,
       { st₁ with
          storage := st₁.storage.map
            (fun t => if t.id = server.id then refreshed else t),
          events := st₁.events ++
            [{ added := [], removed := [], changed := [refreshed] }] })

/-- Modelled from the spec: `assignedServers()` reads the persisted set; each
returned record's `fetch` is reconstructed from the stored token/headers by
`connectionFetch` (§4.4). -/
def assignedServers (st : AssignmentManagerState) : List ColabAssignedServer :=
  st.storage

/-- A well-formed stored server record: its headers are exactly the two fixed
headers regenerated from its current token. -/
def WFServer (clientName : String) (s : ColabAssignedServer) : Prop :=
  s.connectionInformation.headers =
    connectionHeaders s.connectionInformation.token clientName

/-- The request an outbound call is expected to carry after the bound fetch:
the original headers plus the runtime-proxy-token header set to the given
token and the client-agent header set to the client name (§6). -/
def withColabHeaders (clientName token : String) (req : OutboundRequest) :
    OutboundRequest :=
  { req with headers := req.headers ++
      [(proxyTokenHeader, token), (clientAgentHeader, clientName)] }

/-! ### Theorems -/

/-- Claim C3: for every login attempt whose trigger returns an authorization
code, the token exchange fails with `TokenExchangeFailed` (the thrown
"Failed to get token" error) whenever the HTTP-level response status is not
the success status 200; it fails with `IncompleteCredentials` (the thrown
"Missing credential information." error) whenever the status is 200 but the
token response lacks any of access token, refresh token, expiry date, or
scope; and otherwise the token response's tokens are returned as the
credentials. -/
theorem exchange_code_characterization
    (getToken : TokenRequest → GetTokenResponse) (fr : FlowResult)
    (pkv : String) :
    ((getToken (tokenRequestFor fr pkv)).res.map HttpResponse.status ≠ some 200 →
      exchangeCodeForCredentials getToken fr pkv =
        Except.error ("Failed to get token: " ++
          statusDetails (getToken (tokenRequestFor fr pkv)).res ++ "."))
    ∧ ((getToken (tokenRequestFor fr pkv)).res.map HttpResponse.status = some 200 →
      isDefinedCredentials (getToken (tokenRequestFor fr pkv)).tokens = false →
      exchangeCodeForCredentials getToken fr pkv =
        Except.error "Missing credential information.")
    ∧ ((getToken (tokenRequestFor fr pkv)).res.map HttpResponse.status = some 200 →
      isDefinedCredentials (getToken (tokenRequestFor fr pkv)).tokens = true →
      exchangeCodeForCredentials getToken fr pkv =
        Except.ok (getToken (tokenRequestFor fr pkv)).tokens) := by
  refine ⟨?_, ?_, ?_⟩
  · intro h
    simp [exchangeCodeForCredentials, h]
  · intro h hcred
    simp [exchangeCodeForCredentials, h, hcred]
  · intro h hcred
    simp [exchangeCodeForCredentials, h, hcred]

/-- Witness for C3: a concrete exchange whose HTTP status is 500 fails with
the "Failed to get token" error. -/
theorem exchange_code_characterization_witness :
    exchangeCodeForCredentials
        (fun _ =>
          { res := some { status := 500, statusText := "ISE" },
            tokens := { refresh_token := none, access_token := none,
                        expiry_date := none, scope := none, id_token := none } })
        { code := "c", redirectUri := some "r", disposable := none } "v" =
      Except.error "Failed to get token: ISE." := by
  have h := (exchange_code_characterization
    (fun _ =>
      { res := some { status := 500, statusText := "ISE" },
        tokens := { refresh_token := none, access_token := none,
                    expiry_date := none, scope := none, id_token := none } })
    { code := "c", redirectUri := some "r", disposable := none } "v").1
    (by decide)
  simpa using h

/-- Inversion of a successful attempt: the trigger produced a flow result, the
exchange of that result succeeded with the returned credentials, and the
attempt's disposable is the flow result's. -/
theorem attemptFlow_ok {getToken : TokenRequest → GetTokenResponse}
    {pkv : String} {f : Flow} {c : OAuthCredentials} {d : Option Nat}
    (h : attemptFlow getToken pkv f = Except.ok (c, d)) :
    ∃ fr, f.triggerResult = Except.ok fr
      ∧ exchangeCodeForCredentials getToken fr pkv = Except.ok c
      ∧ d = fr.disposable := by
  cases htr : f.triggerResult with
  | error e => simp [attemptFlow, htr] at h
  | ok fr =>
    cases hex : exchangeCodeForCredentials getToken fr pkv with
    | error e => simp [attemptFlow, htr, hex] at h
    | ok creds =>
      simp only [attemptFlow, htr, hex] at h
      obtain ⟨h1, h2⟩ := Prod.mk.injEq .. ▸ Except.ok.inj h
      subst h1
      exact ⟨fr, rfl, hex, h2.symm⟩

/-- When the login loop ends in an error, the error is the final message. -/
theorem loginGo_error_msg (firstRef : Nat) (finalMsg : String)
    (getToken : TokenRequest → GetTokenResponse)
    (pkce : Nat → String) (prompt : Nat → Bool) :
    ∀ (rem : List Flow) (a p : Nat) (e : String),
      (loginGo firstRef finalMsg getToken pkce prompt rem a p).result =
        Except.error e → e = finalMsg := by
  intro rem
  induction rem with
  | nil =>
    intro a p e h
    simpa [loginGo, eq_comm] using h
  | cons f rest ih =>
    intro a p e h
    simp only [loginGo] at h
    split at h
    · simpa [eq_comm] using h
    · cases hA : attemptFlow getToken (pkce a) f with
      | ok v =>
        obtain ⟨creds, disp⟩ := v
        simp [hA] at h
      | error e2 =>
        simp only [hA] at h
        exact ih (a + 1) _ e h

/-- In the login loop over the flows after the first, every attempted flow had
its own fallback prompt and all earlier ones answered positively. -/
theorem loginGo_prompts (firstRef : Nat) (finalMsg : String)
    (getToken : TokenRequest → GetTokenResponse)
    (pkce : Nat → String) (prompt : Nat → Bool) :
    ∀ (rem : List Flow) (a p : Nat),
      (∀ f ∈ rem, f.ref ≠ firstRef) → (rem.map Flow.ref).Nodup →
      ∀ (i : Nat) (hi : i < rem.length),
        (rem.get ⟨i, hi⟩).ref ∈
          (loginGo firstRef finalMsg getToken pkce prompt rem a p).attempted →
        ∀ k ≤ i, prompt (p + k) = true := by
  intro rem
  induction rem with
  | nil =>
    intro a p _ _ i hi
    exact absurd hi (by simp)
  | cons f rest ih =>
    intro a p hnf hnd i hi hmem k hk
    have hf : f.ref ≠ firstRef := hnf f (List.mem_cons_self f rest)
    have hndt : (rest.map Flow.ref).Nodup := (List.nodup_cons.mp hnd).2
    have hfnm : f.ref ∉ rest.map Flow.ref := (List.nodup_cons.mp hnd).1
    simp only [loginGo] at hmem
    by_cases hpr : prompt p = true
    · rw [if_neg (by simp [hpr])] at hmem
      rw [if_neg hf] at hmem
      cases hA : attemptFlow getToken (pkce a) f with
      | ok v =>
        obtain ⟨creds, disp⟩ := v
        simp only [hA] at hmem
        cases i with
        | zero =>
          have hk0 : k = 0 := Nat.le_zero.mp hk
          subst hk0
          simpa using hpr
        | succ j =>
          exfalso
          simp only [List.get_cons_succ, List.mem_singleton] at hmem
          exact hfnm (hmem ▸ List.mem_map_of_mem Flow.ref
            (List.get_mem rest j (Nat.lt_of_succ_lt_succ hi)))
      | error e0 =>
        simp only [hA] at hmem
        cases i with
        | zero =>
          have hk0 : k = 0 := Nat.le_zero.mp hk
          subst hk0
          simpa using hpr
        | succ j =>
          simp only [List.get_cons_succ, List.mem_cons] at hmem
          rcases hmem with heq | hmemt
          · exact absurd (heq ▸ List.mem_map_of_mem Flow.ref
              (List.get_mem rest j (Nat.lt_of_succ_lt_succ hi))) hfnm
          · have ihres := ih (a + 1) (p + 1)
              (fun g hg => hnf g (List.mem_cons_of_mem f hg)) hndt
              j (Nat.lt_of_succ_lt_succ hi) hmemt
            cases k with
            | zero => simpa using hpr
            | succ k2 =>
              have h2 := ihres k2 (Nat.le_of_succ_le_succ hk)
              have harith : p + (k2 + 1) = p + 1 + k2 := by omega
              rw [harith]
              exact h2
    · have hpf : prompt p = false := by
        simpa using hpr
      rw [if_pos ⟨hf, hpf⟩] at hmem
      simp at hmem

/-- Claim C1: login tries the provider's strategies in provider order: the
first strategy is attempted unconditionally (it heads the attempted list),
every subsequent strategy is attempted only if the user accepted every
fallback prompt up to it — so a declined prompt stops all further attempts —
and when the loop ends without a successful attempt, login fails with
`AllFlowsFailed` ("All authentication methods failed.") when more than one
strategy was available, and with `AuthenticationFailed`
("Authentication failed.") when exactly one was. -/
theorem login_iterates_flows_in_order
    (flows : List Flow) (getToken : TokenRequest → GetTokenResponse)
    (pkce : Nat → String) (prompt : Nat → Bool)
    (hne : flows ≠ []) (hnd : (flows.map Flow.ref).Nodup) :
    (login flows getToken pkce prompt).attempted.head? =
      some ((flows.head hne).ref)
    ∧ (∀ (i : Nat) (hi : i < flows.length), 0 < i →
        (flows.get ⟨i, hi⟩).ref ∈ (login flows getToken pkce prompt).attempted →
        ∀ k < i, prompt k = true)
    ∧ (∀ e, (login flows getToken pkce prompt).result = Except.error e →
        e = if 1 < flows.length then "All authentication methods failed."
            else "Authentication failed.") := by
  cases flows with
  | nil => exact absurd rfl hne
  | cons f0 rest =>
    have hfnm : f0.ref ∉ rest.map Flow.ref := (List.nodup_cons.mp hnd).1
    have hndt : (rest.map Flow.ref).Nodup := (List.nodup_cons.mp hnd).2
    have hnf : ∀ f ∈ rest, f.ref ≠ f0.ref := by
      intro g hg heq
      exact hfnm (heq ▸ List.mem_map_of_mem Flow.ref hg)
    have hL : login (f0 :: rest) getToken pkce prompt =
        loginGo f0.ref
          (if 1 < (f0 :: rest).length then "All authentication methods failed."
           else "Authentication failed.")
          getToken pkce prompt (f0 :: rest) 0 0 := rfl
    rw [hL]
    simp only [loginGo]
    rw [if_neg (by simp)]
    simp only [ite_true]
    cases hA : attemptFlow getToken (pkce 0) f0 with
    | ok v =>
      obtain ⟨creds, disp⟩ := v
      simp only [hA]
      refine ⟨by simp, ?_, ?_⟩
      · intro i hi hpos hmem k hk
        exfalso
        cases i with
        | zero => exact absurd hpos (by simp)
        | succ j =>
          simp only [List.get_cons_succ, List.mem_singleton] at hmem
          exact hfnm (hmem ▸ List.mem_map_of_mem Flow.ref
            (List.get_mem rest j (Nat.lt_of_succ_lt_succ hi)))
      · intro e h
        cases h
    | error e0 =>
      simp only [hA]
      refine ⟨by simp, ?_, ?_⟩
      · intro i hi hpos hmem k hk
        cases i with
        | zero => exact absurd hpos (by simp)
        | succ j =>
          simp only [List.get_cons_succ, List.mem_cons] at hmem
          rcases hmem with heq | hmemt
          · exact absurd (heq ▸ List.mem_map_of_mem Flow.ref
              (List.get_mem rest j (Nat.lt_of_succ_lt_succ hi))) hfnm
          · have hres := loginGo_prompts f0.ref _ getToken pkce prompt rest
              1 0 hnf hndt j (Nat.lt_of_succ_lt_succ hi) hmemt
              k (Nat.le_of_succ_le_succ hk)
            simpa using hres
      · intro e h
        exact loginGo_error_msg f0.ref _ getToken pkce prompt rest 1 0 e h

/-- Witness for C1: with two failing strategies and a user who accepts the
fallback prompt, both strategies are attempted in order, the second only after
a positive prompt, and login fails with "All authentication methods failed.". -/
theorem login_iterates_flows_in_order_witness :
    (login [{ ref := 0, triggerResult := Except.error "Barf" },
            { ref := 1, triggerResult := Except.error "Yack" }]
        (fun _ =>
          { res := none,
            tokens := { refresh_token := none, access_token := none,
                        expiry_date := none, scope := none, id_token := none } })
        (fun _ => "v") (fun _ => true)).attempted.head? = some 0 :=
  (login_iterates_flows_in_order
    [{ ref := 0, triggerResult := Except.error "Barf" },
     { ref := 1, triggerResult := Except.error "Yack" }]
    (fun _ =>
      { res := none,
        tokens := { refresh_token := none, access_token := none,
                    expiry_date := none, scope := none, id_token := none } })
    (fun _ => "v") (fun _ => true) (by simp) (by simp)).1

/-- In the login loop, the disposables disposed are empty when the loop fails,
and exactly the successful attempt's flow-result disposable when it
succeeds. -/
theorem loginGo_disposed (firstRef : Nat) (finalMsg : String)
    (getToken : TokenRequest → GetTokenResponse)
    (pkce : Nat → String) (prompt : Nat → Bool) :
    ∀ (rem : List Flow) (a p : Nat),
      (∀ e, (loginGo firstRef finalMsg getToken pkce prompt rem a p).result =
          Except.error e →
        (loginGo firstRef finalMsg getToken pkce prompt rem a p).disposed = [])
      ∧ (∀ c, (loginGo firstRef finalMsg getToken pkce prompt rem a p).result =
          Except.ok c →
        ∃ (i : Nat) (hi : i < rem.length) (fr : FlowResult),
          (rem.get ⟨i, hi⟩).triggerResult = Except.ok fr
          ∧ exchangeCodeForCredentials getToken fr (pkce (a + i)) = Except.ok c
          ∧ (loginGo firstRef finalMsg getToken pkce prompt rem a p).disposed =
              fr.disposable.toList) := by
  intro rem
  induction rem with
  | nil =>
    intro a p
    constructor
    · intro e _
      rfl
    · intro c h
      cases h
  | cons f rest ih =>
    intro a p
    simp only [loginGo]
    split
    · constructor
      · intro e _
        rfl
      · intro c h
        cases h
    · cases hA : attemptFlow getToken (pkce a) f with
      | ok v =>
        obtain ⟨creds, disp⟩ := v
        simp only [hA]
        constructor
        · intro e h
          cases h
        · intro c h
          have hc : creds = c := by
            simpa using h
          subst hc
          obtain ⟨fr, htr, hex, hdisp⟩ := attemptFlow_ok hA
          refine ⟨0, by simp, fr, ?_, ?_, ?_⟩
          · exact htr
          · exact hex
          · simp [hdisp]
      | error e0 =>
        simp only [hA]
        constructor
        · intro e h
          exact (ih (a + 1) _).1 e h
        · intro c h
          obtain ⟨i, hi, fr, htr, hex, hdisp⟩ := (ih (a + 1) _).2 c h
          refine ⟨i + 1, by simpa using Nat.succ_lt_succ hi, fr, ?_, ?_, ?_⟩
          · simpa using htr
          · have harith : a + (i + 1) = a + 1 + i := by omega
            rw [harith]
            exact hex
          · exact hdisp

/-- Claim C10: within a single login attempt, the per-attempt
FlowResult.disposable is disposed if and only if the token exchange succeeds:
when login fails (every attempt's trigger or exchange failed) nothing is ever
disposed, and when login succeeds the disposed list is exactly the successful
attempt's disposable — in particular an attempt whose trigger succeeded but
whose exchange failed leaves its disposable undisposed. -/
theorem login_disposable_iff_exchange_success
    (flows : List Flow) (getToken : TokenRequest → GetTokenResponse)
    (pkce : Nat → String) (prompt : Nat → Bool) :
    (∀ e, (login flows getToken pkce prompt).result = Except.error e →
      (login flows getToken pkce prompt).disposed = [])
    ∧ (∀ c, (login flows getToken pkce prompt).result = Except.ok c →
      ∃ (i : Nat) (hi : i < flows.length) (fr : FlowResult),
        (flows.get ⟨i, hi⟩).triggerResult = Except.ok fr
        ∧ exchangeCodeForCredentials getToken fr (pkce i) = Except.ok c
        ∧ (login flows getToken pkce prompt).disposed = fr.disposable.toList) := by
  cases flows with
  | nil =>
    constructor
    · intro e _
      rfl
    · intro c h
      cases h
  | cons f0 rest =>
    have hL : login (f0 :: rest) getToken pkce prompt =
        loginGo f0.ref
          (if 1 < (f0 :: rest).length then "All authentication methods failed."
           else "Authentication failed.")
          getToken pkce prompt (f0 :: rest) 0 0 := rfl
    rw [hL]
    have h := loginGo_disposed f0.ref
      (if 1 < (f0 :: rest).length then "All authentication methods failed."
       else "Authentication failed.")
      getToken pkce prompt (f0 :: rest) 0 0
    refine ⟨h.1, ?_⟩
    intro c hr
    obtain ⟨i, hi, fr, htr, hex, hdisp⟩ := h.2 c hr
    exact ⟨i, hi, fr, htr, by simpa using hex, hdisp⟩

/-- Witness for C10: a login whose single flow triggers successfully but whose
token exchange fails (HTTP 500) disposes nothing. -/
theorem login_disposable_iff_exchange_success_witness :
    (login [{ ref := 0, triggerResult :=
        Except.ok { code := "c", redirectUri := some "r", disposable := some 7 } }]
      (fun _ =>
        { res := some { status := 500, statusText := "ISE" },
          tokens := { refresh_token := none, access_token := none,
                      expiry_date := none, scope := none, id_token := none } })
      (fun _ => "v") (fun _ => true)).disposed = [] :=
  (login_disposable_iff_exchange_success
    [{ ref := 0, triggerResult :=
        Except.ok { code := "c", redirectUri := some "r", disposable := some 7 } }]
    (fun _ =>
      { res := some { status := 500, statusText := "ISE" },
        tokens := { refresh_token := none, access_token := none,
                    expiry_date := none, scope := none, id_token := none } })
    (fun _ => "v") (fun _ => true)).1 "Authentication failed." (by rfl)

/-- Claim C7: a waitForCode request that is neither resolved nor cancelled
fails with `Timeout` once 60 seconds have elapsed since its registration —
left unresolved for 60.001 seconds of simulated time it has failed with
`Timeout` — while one whose resolveCode arrives before the 60-second deadline
(at 59.999 seconds) succeeds with its code. -/
theorem code_manager_timeout_boundary (s : CodeManagerState) (n c : String)
    (s₁ : CodeManagerState) (h : waitForCode s n = (Except.ok (), s₁)) :
    ((n, WaitOutcome.timedOut) ∈ (advanceTime s₁ 60001).outcomes
      ∧ n ∉ pendingNonces (advanceTime s₁ 60001))
    ∧ ∃ s₂, resolveCode (advanceTime s₁ 59999) n c = (Except.ok (), s₂)
        ∧ (n, WaitOutcome.resolved c) ∈ s₂.outcomes := by
  by_cases hmem : n ∈ pendingNonces s
  · simp [waitForCode, hmem] at h
  · rw [waitForCode, if_neg hmem] at h
    have hs : s₁ = { s with pending := s.pending ++ [⟨n, s.now + waitTimeoutMs⟩] } :=
      ((Prod.ext_iff.mp h).2).symm
    subst hs
    have hto : s.now + waitTimeoutMs ≤ s.now + 60001 := by
      simp [waitTimeoutMs]
    have hkeep : s.now + 59999 < s.now + waitTimeoutMs := by
      simp [waitTimeoutMs]
    refine ⟨⟨?_, ?_⟩, ?_⟩
    · simp only [advanceTime]
      refine List.mem_append_right _ ?_
      rw [List.filter_append, List.map_append]
      refine List.mem_append_right _ ?_
      simp [hto]
    · intro hcontra
      simp only [advanceTime, pendingNonces, List.filter_append,
        List.map_append, List.mem_append, List.mem_map, List.mem_filter,
        decide_eq_true_eq] at hcontra
      rcases hcontra with ⟨p, ⟨hp, _⟩, hpn⟩ | ⟨p, ⟨hp, hlt⟩, hpn⟩
      · exact hmem (hpn ▸ List.mem_map_of_mem PendingRequest.nonce hp)
      · rw [List.mem_singleton] at hp
        subst hp
        simp only [waitTimeoutMs] at hlt
        omega
    · have hmem2 : n ∈ pendingNonces (advanceTime
          { s with pending := s.pending ++ [⟨n, s.now + waitTimeoutMs⟩] } 59999) := by
        simp only [advanceTime, pendingNonces, List.filter_append,
          List.map_append, List.mem_append, List.mem_map]
        right
        exact ⟨⟨n, s.now + waitTimeoutMs⟩, by simp [hkeep], rfl⟩
      refine ⟨_, by rw [resolveCode, if_pos hmem2], ?_⟩
      simp

/-- Witness for C7: a concrete wait registered at time 0 times out at 60.001
seconds and resolves successfully at 59.999 seconds. -/
theorem code_manager_timeout_boundary_witness :
    (("1", WaitOutcome.timedOut) ∈
        (advanceTime ⟨0, [⟨"1", 60000⟩], []⟩ 60001).outcomes
      ∧ "1" ∉ pendingNonces (advanceTime ⟨0, [⟨"1", 60000⟩], []⟩ 60001))
    ∧ ∃ s₂, resolveCode (advanceTime ⟨0, [⟨"1", 60000⟩], []⟩ 59999)
          "1" "42" = (Except.ok (), s₂)
        ∧ ("1", WaitOutcome.resolved "42") ∈ s₂.outcomes :=
  code_manager_timeout_boundary ⟨0, [], []⟩ "1" "42"
    ⟨0, [⟨"1", 60000⟩], []⟩ (by rfl)

/-- Claim C8: the Code Correlator's misuse errors leave the pending set
unchanged: waitForCode on a registered, unresolved nonce fails with
`AlreadyWaiting` and resolveCode on an unknown nonce fails with
`UnknownNonce`, both returning the state untouched; any other pending request
still times out at exactly its own deadline as if the failing call had not
happened. -/
theorem code_manager_misuse_frame (s : CodeManagerState)
    (n m c nOther : String) (dl : Nat)
    (hn : n ∈ pendingNonces s) (hm : m ∉ pendingNonces s)
    (hp : (⟨nOther, dl⟩ : PendingRequest) ∈ s.pending) :
    waitForCode s n = (Except.error CodeManagerError.alreadyWaiting, s)
    ∧ resolveCode s m c = (Except.error CodeManagerError.unknownNonce, s)
    ∧ ∀ delta, dl ≤ s.now + delta →
        (nOther, WaitOutcome.timedOut) ∈
          (advanceTime (waitForCode s n).2 delta).outcomes
        ∧ (nOther, WaitOutcome.timedOut) ∈
          (advanceTime (resolveCode s m c).2 delta).outcomes := by
  have h1 : waitForCode s n = (Except.error CodeManagerError.alreadyWaiting, s) := by
    rw [waitForCode, if_pos hn]
  have h2 : resolveCode s m c = (Except.error CodeManagerError.unknownNonce, s) := by
    rw [resolveCode, if_neg hm]
  refine ⟨h1, h2, ?_⟩
  intro delta hdl
  rw [h1, h2]
  constructor <;>
  · simp only [advanceTime]
    refine List.mem_append_right _ ?_
    refine List.mem_map.mpr ⟨⟨nOther, dl⟩, ?_, rfl⟩
    exact List.mem_filter.mpr ⟨hp, by simpa using hdl⟩

/-- Witness for C8: on a manager with nonce "n1" pending, a duplicate wait and
a resolve of an unknown nonce both fail without touching the state, and "n1"
still times out at its own deadline afterwards. -/
theorem code_manager_misuse_frame_witness :
    waitForCode ⟨0, [⟨"n1", 60000⟩], []⟩ "n1" =
      (Except.error CodeManagerError.alreadyWaiting, ⟨0, [⟨"n1", 60000⟩], []⟩)
    ∧ ("n1", WaitOutcome.timedOut) ∈
        (advanceTime (resolveCode ⟨0, [⟨"n1", 60000⟩], []⟩
          "unknown" "42").2 60000).outcomes := by
  have h := code_manager_misuse_frame ⟨0, [⟨"n1", 60000⟩], []⟩
    "n1" "unknown" "42" "n1" 60000 (by simp [pendingNonces])
    (by simp [pendingNonces]) (by simp)
  exact ⟨h.1, (h.2.2 60000 (by simp)).2⟩

/-- Claim C2: two distinct nonces pending on a fresh correlator resolve
independently of registration order — resolving the later-registered nonce
first delivers each waiter its own code — each request's 60-second deadline is
measured from its own registration, resolving one leaves the other's pending
entry and the clock untouched, and each request times out exactly when its own
deadline passes, regardless of the other. -/
theorem code_manager_independent_nonces
    (s : CodeManagerState) (n1 n2 c1 c2 : String) (d : Nat)
    (s₁ s₂ s₃ s₄ : CodeManagerState)
    (hpend : s.pending = []) (houtc : s.outcomes = [])
    (hne : n1 ≠ n2) (hd : d < waitTimeoutMs)
    (h1 : waitForCode s n1 = (Except.ok (), s₁))
    (h2 : waitForCode (advanceTime s₁ d) n2 = (Except.ok (), s₂))
    (h3 : resolveCode s₂ n2 c2 = (Except.ok (), s₃))
    (h4 : resolveCode s₃ n1 c1 = (Except.ok (), s₄)) :
    s₂.pending = [⟨n1, s.now + waitTimeoutMs⟩, ⟨n2, s.now + d + waitTimeoutMs⟩]
    ∧ s₃.pending = [⟨n1, s.now + waitTimeoutMs⟩]
    ∧ s₃.now = s₂.now
    ∧ s₄.outcomes = [(n2, WaitOutcome.resolved c2), (n1, WaitOutcome.resolved c1)]
    ∧ (∀ delta, ((n1, WaitOutcome.timedOut) ∈ (advanceTime s₂ delta).outcomes
          ↔ waitTimeoutMs ≤ d + delta))
    ∧ (∀ delta, ((n2, WaitOutcome.timedOut) ∈ (advanceTime s₂ delta).outcomes
          ↔ waitTimeoutMs ≤ delta)) := by
  obtain ⟨now, pd, oc⟩ := s
  simp only at hpend houtc
  subst hpend
  subst houtc
  have hne2 : n2 ≠ n1 := Ne.symm hne
  -- registration of n1
  have hm1 : n1 ∉ pendingNonces ⟨now, [], []⟩ := by
    simp [pendingNonces]
  rw [waitForCode, if_neg hm1] at h1
  have hs1 : s₁ = ⟨now, [⟨n1, now + waitTimeoutMs⟩], []⟩ :=
    ((Prod.ext_iff.mp h1).2).symm
  subst hs1
  -- the 30-second-style advance keeps the first request pending
  have hkeep : now + d < now + waitTimeoutMs := by omega
  have hnoto : ¬ (now + waitTimeoutMs ≤ now + d) := by omega
  have ha : advanceTime ⟨now, [⟨n1, now + waitTimeoutMs⟩], []⟩ d
      = ⟨now + d, [⟨n1, now + waitTimeoutMs⟩], []⟩ := by
    simp [advanceTime, hkeep, hnoto]
  rw [ha] at h2
  -- registration of n2
  have hm2 : n2 ∉ pendingNonces ⟨now + d, [⟨n1, now + waitTimeoutMs⟩], []⟩ := by
    simp [pendingNonces, hne2]
  rw [waitForCode, if_neg hm2] at h2
  have hs2 : s₂ = ⟨now + d,
      [⟨n1, now + waitTimeoutMs⟩, ⟨n2, now + d + waitTimeoutMs⟩], []⟩ :=
    ((Prod.ext_iff.mp h2).2).symm
  subst hs2
  -- resolution of n2 first
  have hm3 : n2 ∈ pendingNonces ⟨now + d,
      [⟨n1, now + waitTimeoutMs⟩, ⟨n2, now + d + waitTimeoutMs⟩], []⟩ := by
    simp [pendingNonces]
  rw [resolveCode, if_pos hm3] at h3
  have hs3 : s₃ = ⟨now + d, [⟨n1, now + waitTimeoutMs⟩],
      [(n2, WaitOutcome.resolved c2)]⟩ := by
    have := ((Prod.ext_iff.mp h3).2).symm
    simpa [hne, hne2] using this
  subst hs3
  -- resolution of n1 second
  have hm4 : n1 ∈ pendingNonces ⟨now + d, [⟨n1, now + waitTimeoutMs⟩],
      [(n2, WaitOutcome.resolved c2)]⟩ := by
    simp [pendingNonces]
  rw [resolveCode, if_pos hm4] at h4
  have hs4 : s₄ = ⟨now + d, [],
      [(n2, WaitOutcome.resolved c2), (n1, WaitOutcome.resolved c1)]⟩ := by
    have := ((Prod.ext_iff.mp h4).2).symm
    simpa using this
  subst hs4
  refine ⟨rfl, rfl, rfl, rfl, ?_, ?_⟩
  · intro delta
    by_cases hc1 : now + waitTimeoutMs ≤ now + d + delta
    · by_cases hc2 : now + d + waitTimeoutMs ≤ now + d + delta
      · simp only [advanceTime]
        simp [hc1, hc2, hne]
        omega
      · simp only [advanceTime]
        simp [hc1, hc2, hne]
        omega
    · have hc2 : ¬ (now + d + waitTimeoutMs ≤ now + d + delta) := by omega
      simp only [advanceTime]
      simp [hc1, hc2, hne]
      omega
  · intro delta
    by_cases hc1 : now + waitTimeoutMs ≤ now + d + delta
    · by_cases hc2 : now + d + waitTimeoutMs ≤ now + d + delta
      · simp only [advanceTime]
        simp [hc1, hc2, hne2]
        omega
      · simp only [advanceTime]
        simp [hc1, hc2, hne2]
        omega
    · have hc2 : ¬ (now + d + waitTimeoutMs ≤ now + d + delta) := by omega
      simp only [advanceTime]
      simp [hc1, hc2, hne2]
      omega

/-- Witness for C2: nonces "1" and "2" registered 30 seconds apart and
resolved out of order each deliver their own code. -/
theorem code_manager_independent_nonces_witness :
    (resolveCode (resolveCode ⟨30000, [⟨"1", 60000⟩, ⟨"2", 90000⟩], []⟩
        "2" "99").2 "1" "42").2.outcomes =
      [("2", WaitOutcome.resolved "99"), ("1", WaitOutcome.resolved "42")] :=
  (code_manager_independent_nonces ⟨0, [], []⟩ "1" "2" "42" "99" 30000
    ⟨0, [⟨"1", 60000⟩], []⟩
    ⟨30000, [⟨"1", 60000⟩, ⟨"2", 90000⟩], []⟩
    ⟨30000, [⟨"1", 60000⟩], [("2", WaitOutcome.resolved "99")]⟩
    ⟨30000, [], [("2", WaitOutcome.resolved "99"), ("1", WaitOutcome.resolved "42")]⟩
    rfl rfl (by decide) (by decide)
    (by rfl) (by rfl) (by rfl) (by rfl)).2.2.2.1

/-- Counterexample for C9: the handler does not fail with distinct
`MissingNonce` and `MissingCode` errors respectively — a URI missing its
nonce and a URI missing its code both fail with the one combined error
"Missing nonce or code in redirect URI". -/
theorem proxied_missing_param_single_error :
    flowResolveCode ⟨0, [⟨"n1", 60000⟩], []⟩ "code=42"
      = (Except.error "Missing nonce or code in redirect URI",
         ⟨0, [⟨"n1", 60000⟩], []⟩)
    ∧ flowResolveCode ⟨0, [⟨"n1", 60000⟩], []⟩ "nonce=n1"
      = (Except.error "Missing nonce or code in redirect URI",
         ⟨0, [⟨"n1", 60000⟩], []⟩)
    ∧ (flowResolveCode ⟨0, [⟨"n1", 60000⟩], []⟩ "code=42").1
      = (flowResolveCode ⟨0, [⟨"n1", 60000⟩], []⟩ "nonce=n1").1 :=
  ⟨rfl, rfl, rfl⟩

/-- Claim C9 (amended): the inbound callback URI handler parses the nonce and
code query parameters; when either parameter is absent or empty it fails with
the single combined error "Missing nonce or code in redirect URI" — the same
error in both cases — without resolving any pending request, and otherwise it
calls resolveCode(nonce, code). -/
theorem proxied_callback_characterization (s : CodeManagerState)
    (query : String) :
    ((missingParam (getQueryParam query "nonce") = true
      ∨ missingParam (getQueryParam query "code") = true) →
      flowResolveCode s query =
        (Except.error "Missing nonce or code in redirect URI", s))
    ∧ (∀ n c, getQueryParam query "nonce" = some n → n ≠ ""
        → getQueryParam query "code" = some c → c ≠ "" →
        flowResolveCode s query =
          (match resolveCode s n c with
           | (Except.ok _, s₂) => (Except.ok (), s₂)
           | (Except.error e, s₂) =>
              (Except.error (codeManagerErrorMessage e), s₂))) := by
  constructor
  · intro h
    have hcond : (missingParam (getQueryParam query "nonce")
        || missingParam (getQueryParam query "code")) = true := by
      rcases h with h | h <;> simp [h]
    simp only [flowResolveCode, hcond]
    rfl
  · intro n c hn hne hc hce
    simp only [flowResolveCode, hn, hc, Option.getD_some]
    rw [if_neg (by simp [missingParam, hne, hce])]

/-- Witness for C9 (amended): a URI carrying both parameters resolves the
pending request for its nonce with its code. -/
theorem proxied_callback_characterization_witness :
    flowResolveCode ⟨0, [⟨"n1", 60000⟩], []⟩ "nonce=n1&code=42" =
      (Except.ok (), ⟨0, [], [("n1", WaitOutcome.resolved "42")]⟩) := by
  have h := (proxied_callback_characterization ⟨0, [⟨"n1", 60000⟩], []⟩
    "nonce=n1&code=42").2 "n1" "42" (by rfl) (by decide) (by rfl) (by decide)
  exact h.trans (by rfl)

/-- Claim C4: a remote assignment response lacking runtime proxy info, or with
an empty runtime-proxy URL, or with an empty runtime-proxy token makes
assignServer fail with `MissingConnectionInfo`, write nothing to server
storage, and emit no assignment change event. -/
theorem assign_server_missing_connection_info
    (api : String → String → Option String → AssignmentResponse)
    (clientName : String) (st : AssignmentManagerState)
    (id : String) (descriptor : ColabServerDescriptor) (now : Nat)
    (h : (api id descriptor.variant descriptor.accelerator).runtimeProxyInfo = none
      ∨ ∃ rp, (api id descriptor.variant descriptor.accelerator).runtimeProxyInfo
            = some rp
          ∧ (rp.url = "" ∨ rp.token = "")) :
    (assignServer api clientName st id descriptor now).1
        = Except.error AssignmentError.missingConnectionInfo
    ∧ (assignServer api clientName st id descriptor now).2.storage = st.storage
    ∧ (assignServer api clientName st id descriptor now).2.events = st.events := by
  rcases h with h | ⟨rp, h, hbad⟩
  · simp [assignServer, h]
  · simp only [assignServer, h]
    rw [if_pos hbad]
    exact ⟨rfl, rfl, rfl⟩

/-- Witness for C4: a response whose runtime-proxy URL is empty fails the
assignment and leaves storage and events untouched. -/
theorem assign_server_missing_connection_info_witness :
    (assignServer
        (fun _ _ _ => ⟨some "A100", "ep", "s", "t", "GPU", "std",
          some ⟨"tok", 42, ""⟩⟩)
        "vscode" ⟨[], [], []⟩ "id1" ⟨"lbl", "GPU", some "A100"⟩ 5).1
      = Except.error AssignmentError.missingConnectionInfo
    ∧ (assignServer
        (fun _ _ _ => ⟨some "A100", "ep", "s", "t", "GPU", "std",
          some ⟨"tok", 42, ""⟩⟩)
        "vscode" ⟨[], [], []⟩ "id1" ⟨"lbl", "GPU", some "A100"⟩ 5).2.storage = []
    ∧ (assignServer
        (fun _ _ _ => ⟨some "A100", "ep", "s", "t", "GPU", "std",
          some ⟨"tok", 42, ""⟩⟩)
        "vscode" ⟨[], [], []⟩ "id1" ⟨"lbl", "GPU", some "A100"⟩ 5).2.events = [] :=
  assign_server_missing_connection_info
    (fun _ _ _ => ⟨some "A100", "ep", "s", "t", "GPU", "std",
      some ⟨"tok", 42, ""⟩⟩)
    "vscode" ⟨[], [], []⟩ "id1" ⟨"lbl", "GPU", some "A100"⟩ 5
    (Or.inr ⟨⟨"tok", 42, ""⟩, rfl, Or.inl rfl⟩)

/-- Claim C5: for an assigned server, refreshConnection re-invokes the remote
assignment API with the same id, variant and accelerator, and returns and
persists a record in which only connectionInformation changes — the new
token, headers regenerated from that token, and the same base URL — while
every other field stays unchanged; the updated record replaces the old one in
storage and exactly one change event is emitted with this server in
`changed`. -/
theorem refresh_connection_spec
    (api : String → String → Option String → AssignmentResponse)
    (clientName : String) (st : AssignmentManagerState)
    (srv : ColabAssignedServer) (rp : RuntimeProxyInfo)
    (server₂ : ColabAssignedServer) (st₂ : AssignmentManagerState)
    (hrp : (api srv.id srv.variant srv.accelerator).runtimeProxyInfo = some rp)
    (hurl : rp.url ≠ "") (htok : rp.token ≠ "")
    (h : refreshConnection api clientName st srv = (Except.ok server₂, st₂)) :
    st₂.apiCalls = st.apiCalls ++ [(srv.id, srv.variant, srv.accelerator)]
    ∧ server₂.id = srv.id ∧ server₂.label = srv.label
    ∧ server₂.variant = srv.variant ∧ server₂.accelerator = srv.accelerator
    ∧ server₂.endpoint = srv.endpoint ∧ server₂.dateAssigned = srv.dateAssigned
    ∧ server₂.connectionInformation =
        mkConnectionInfo srv.connectionInformation.baseUrl rp.token clientName
    ∧ st₂.storage = st.storage.map (fun t => if t.id = srv.id then server₂ else t)
    ∧ st₂.events = st.events ++
        [{ added := [], removed := [], changed := [server₂] }] := by
  simp only [refreshConnection, hrp] at h
  rw [if_neg (by simp [hurl, htok])] at h
  have hsrv := Except.ok.inj (Prod.ext_iff.mp h).1
  have hst := (Prod.ext_iff.mp h).2
  subst hsrv
  subst hst
  exact ⟨rfl, rfl, rfl, rfl, rfl, rfl, rfl, rfl, rfl, rfl⟩

/-- Witness for C5: a concrete refresh replacing token "old" by "new" changes
only the connection information and logs exactly one API call. -/
theorem refresh_connection_spec_witness :
    (⟨[], [{ added := [], removed := [], changed :=
        [⟨"id1", "lbl", "GPU", some "A100", "ep",
          ⟨"https://b", "new", [("X-Colab-Runtime-Proxy-Token", "new"),
            ("X-Colab-Client-Agent", "vscode")]⟩, 5⟩] }],
      [("id1", "GPU", some "A100")]⟩ : AssignmentManagerState).apiCalls
      = [] ++ [("id1", "GPU", some "A100")] := by
  have h := refresh_connection_spec
    (fun _ _ _ => ⟨some "A100", "ep", "s", "t", "GPU", "std",
      some ⟨"new", 42, "https://example.com"⟩⟩)
    "vscode" ⟨[], [], []⟩
    ⟨"id1", "lbl", "GPU", some "A100", "ep",
      ⟨"https://b", "old", [("X-Colab-Runtime-Proxy-Token", "old"),
        ("X-Colab-Client-Agent", "vscode")]⟩, 5⟩
    ⟨"new", 42, "https://example.com"⟩
    ⟨"id1", "lbl", "GPU", some "A100", "ep",
      ⟨"https://b", "new", [("X-Colab-Runtime-Proxy-Token", "new"),
        ("X-Colab-Client-Agent", "vscode")]⟩, 5⟩
    ⟨[], [{ added := [], removed := [], changed :=
        [⟨"id1", "lbl", "GPU", some "A100", "ep",
          ⟨"https://b", "new", [("X-Colab-Runtime-Proxy-Token", "new"),
            ("X-Colab-Client-Agent", "vscode")]⟩, 5⟩] }],
      [("id1", "GPU", some "A100")]⟩
    rfl (by decide) (by decide) (by rfl)
  exact h.1

/-- A well-formed record's bound fetch attaches exactly the runtime-proxy
token header (with the record's current token) and the client-agent header to
any outbound request. -/
theorem wf_fetch {clientName : String} {server : ColabAssignedServer}
    (hwf : WFServer clientName server) (req : OutboundRequest) :
    connectionFetch server.connectionInformation req =
      withColabHeaders clientName server.connectionInformation.token req := by
  unfold WFServer at hwf
  simp [connectionFetch, withColabHeaders, hwf, connectionHeaders]

/-- Inversion of assignServer: either it failed with `MissingConnectionInfo`
and the stored set is unchanged, or it succeeded and the stored set gained
exactly the returned well-formed record. -/
theorem assignServer_cases
    (api : String → String → Option String → AssignmentResponse)
    (clientName : String) (st : AssignmentManagerState)
    (id : String) (descriptor : ColabServerDescriptor) (now : Nat)
    (r : Except AssignmentError ColabAssignedServer)
    (st₂ : AssignmentManagerState)
    (h : assignServer api clientName st id descriptor now = (r, st₂)) :
    (r = Except.error AssignmentError.missingConnectionInfo
      ∧ st₂.storage = st.storage)
    ∨ (∃ server, r = Except.ok server ∧ WFServer clientName server
        ∧ st₂.storage = st.storage ++ [server]) := by
  cases hrp : (api id descriptor.variant descriptor.accelerator).runtimeProxyInfo with
  | none =>
    simp only [assignServer, hrp] at h
    rw [Prod.mk.injEq] at h
    obtain ⟨h1, h2⟩ := h
    subst h2
    exact Or.inl ⟨h1.symm, rfl⟩
  | some rp =>
    simp only [assignServer, hrp] at h
    by_cases hbad : rp.url = "" ∨ rp.token = ""
    · rw [if_pos hbad] at h
      rw [Prod.mk.injEq] at h
      obtain ⟨h1, h2⟩ := h
      subst h2
      exact Or.inl ⟨h1.symm, rfl⟩
    · rw [if_neg hbad] at h
      rw [Prod.mk.injEq] at h
      obtain ⟨h1, h2⟩ := h
      subst h2
      refine Or.inr ⟨_, h1.symm, ?_, rfl⟩
      unfold WFServer
      rfl

/-- Inversion of refreshConnection: either it failed with
`MissingConnectionInfo` and the stored set is unchanged, or it succeeded and
the stored set has the returned well-formed record substituted for the
refreshed id. -/
theorem refreshConnection_cases
    (api : String → String → Option String → AssignmentResponse)
    (clientName : String) (st : AssignmentManagerState)
    (srv : ColabAssignedServer)
    (r : Except AssignmentError ColabAssignedServer)
    (st₂ : AssignmentManagerState)
    (h : refreshConnection api clientName st srv = (r, st₂)) :
    (r = Except.error AssignmentError.missingConnectionInfo
      ∧ st₂.storage = st.storage)
    ∨ (∃ server, r = Except.ok server ∧ WFServer clientName server
        ∧ st₂.storage = st.storage.map
            (fun t => if t.id = srv.id then server else t)) := by
  cases hrp : (api srv.id srv.variant srv.accelerator).runtimeProxyInfo with
  | none =>
    simp only [refreshConnection, hrp] at h
    rw [Prod.mk.injEq] at h
    obtain ⟨h1, h2⟩ := h
    subst h2
    exact Or.inl ⟨h1.symm, rfl⟩
  | some rp =>
    simp only [refreshConnection, hrp] at h
    by_cases hbad : rp.url = "" ∨ rp.token = ""
    · rw [if_pos hbad] at h
      rw [Prod.mk.injEq] at h
      obtain ⟨h1, h2⟩ := h
      subst h2
      exact Or.inl ⟨h1.symm, rfl⟩
    · rw [if_neg hbad] at h
      rw [Prod.mk.injEq] at h
      obtain ⟨h1, h2⟩ := h
      subst h2
      refine Or.inr ⟨_, h1.symm, ?_, rfl⟩
      unfold WFServer
      rfl

/-- Claim C6: every server record produced by assignServer, refreshConnection
or assignedServers carries a bound fetch that attaches the header
X-Colab-Runtime-Proxy-Token set to the record's current token and the header
X-Colab-Client-Agent set to the client name to every outbound call; and both
mutating operations keep every stored record well formed, so the guarantee is
preserved across the manager's lifetime. -/
theorem connection_fetch_injects_headers
    (api : String → String → Option String → AssignmentResponse)
    (clientName : String) (st : AssignmentManagerState)
    (id : String) (descriptor : ColabServerDescriptor) (now : Nat) :
    (∀ server st₂,
      assignServer api clientName st id descriptor now = (Except.ok server, st₂) →
      ∀ req, connectionFetch server.connectionInformation req =
        withColabHeaders clientName server.connectionInformation.token req)
    ∧ (∀ srv server st₂,
      refreshConnection api clientName st srv = (Except.ok server, st₂) →
      ∀ req, connectionFetch server.connectionInformation req =
        withColabHeaders clientName server.connectionInformation.token req)
    ∧ ((∀ t ∈ st.storage, WFServer clientName t) →
        (∀ server ∈ assignedServers st, ∀ req,
          connectionFetch server.connectionInformation req =
            withColabHeaders clientName server.connectionInformation.token req)
        ∧ (∀ r st₂, assignServer api clientName st id descriptor now = (r, st₂) →
            ∀ t ∈ st₂.storage, WFServer clientName t)
        ∧ (∀ srv r st₂, refreshConnection api clientName st srv = (r, st₂) →
            ∀ t ∈ st₂.storage, WFServer clientName t)) := by
  refine ⟨?_, ?_, ?_⟩
  · intro server st₂ h req
    rcases assignServer_cases api clientName st id descriptor now _ _ h with
      ⟨hr, _⟩ | ⟨server₂, hr, hwf, _⟩
    · cases hr
    · exact wf_fetch (Except.ok.inj hr ▸ hwf) req
  · intro srv server st₂ h req
    rcases refreshConnection_cases api clientName st srv _ _ h with
      ⟨hr, _⟩ | ⟨server₂, hr, hwf, _⟩
    · cases hr
    · exact wf_fetch (Except.ok.inj hr ▸ hwf) req
  · intro hall
    refine ⟨?_, ?_, ?_⟩
    · intro server hmem req
      exact wf_fetch (hall server hmem) req
    · intro r st₂ h t ht
      rcases assignServer_cases api clientName st id descriptor now _ _ h with
        ⟨_, hstg⟩ | ⟨server, _, hwf, hstg⟩
      · exact hall t (hstg ▸ ht)
      · rw [hstg] at ht
        rcases List.mem_append.mp ht with ht | ht
        · exact hall t ht
        · rw [List.mem_singleton] at ht
          exact ht ▸ hwf
    · intro srv r st₂ h t ht
      rcases refreshConnection_cases api clientName st srv _ _ h with
        ⟨_, hstg⟩ | ⟨server, _, hwf, hstg⟩
      · exact hall t (hstg ▸ ht)
      · rw [hstg] at ht
        obtain ⟨u, hu, hut⟩ := List.mem_map.mp ht
        by_cases hid : u.id = srv.id
        · rw [if_pos hid] at hut
          exact hut ▸ hwf
        · rw [if_neg hid] at hut
          exact hut ▸ hall u hu
  
/-- Witness for C6: the record stored by a concrete successful assignment
carries a fetch that attaches exactly the two Colab headers. -/
theorem connection_fetch_injects_headers_witness :
    connectionFetch
      (⟨"https://example.com", "tok",
        [("X-Colab-Runtime-Proxy-Token", "tok"),
         ("X-Colab-Client-Agent", "vscode")]⟩ : ConnectionInformation)
      ⟨"https://example.com", []⟩ =
    withColabHeaders "vscode" "tok" ⟨"https://example.com", []⟩ := by
  have h := (connection_fetch_injects_headers
    (fun _ _ _ => ⟨some "A100", "ep", "s", "t", "GPU", "std",
      some ⟨"tok", 42, "https://example.com"⟩⟩)
    "vscode" ⟨[], [], []⟩ "id1" ⟨"lbl", "GPU", some "A100"⟩ 5).1
    ⟨"id1", "lbl", "GPU", some "A100", "ep",
      ⟨"https://example.com", "tok",
        [("X-Colab-Runtime-Proxy-Token", "tok"),
         ("X-Colab-Client-Agent", "vscode")]⟩, 5⟩
    ⟨[⟨"id1", "lbl", "GPU", some "A100", "ep",
        ⟨"https://example.com", "tok",
          [("X-Colab-Runtime-Proxy-Token", "tok"),
           ("X-Colab-Client-Agent", "vscode")]⟩, 5⟩],
      [{ added := [⟨"id1", "lbl", "GPU", some "A100", "ep",
          ⟨"https://example.com", "tok",
            [("X-Colab-Runtime-Proxy-Token", "tok"),
             ("X-Colab-Client-Agent", "vscode")]⟩, 5⟩],
          removed := [], changed := [] }],
      [("id1", "GPU", some "A100")]⟩
    (by rfl) ⟨"https://example.com", []⟩
  exact h

end ColabVsCode
